import Mathlib

/-!
Shallow embedding of the pagination, long-running-operation dispatch, and
error-mapping logic of the generated Azure SDK operation classes under
verification, together with theorems settling the frozen claims about them.

The embedding follows the Python source:
* pure request/response bookkeeping becomes Lean functions;
* the HTTP pipeline (the spec's "Operation Invoker") is an explicit argument
  mapping a continuation link to a response;
* raising an exception becomes returning an `Except`/`Option` error value;
* Python dicts of query parameters become ordered association lists with the
  update semantics of `dict.__setitem__` (replace in place, else append).
-/

/-- Error kinds raised by the generated operations.  The first four are the
azure.core typed errors named in the per-operation `error_map` dicts; `httpResponse`
is the generic `HttpResponseError` raised for unmapped non-success statuses;
`custom` stands for a caller-supplied error type in a caller `error_map`. -/
inductive ErrorKind where
  | clientAuthentication
  | resourceNotFound
  | resourceExists
  | resourceNotModified
  | httpResponse
  | custom (tag : Nat)
deriving DecidableEq, Repr

/-- Python `dict.__setitem__` on an association list with `Nat` keys: replace the
value of an existing key in place, otherwise append the new binding. -/
def natDictSet : List (Nat × ErrorKind) → Nat → ErrorKind → List (Nat × ErrorKind)
  | [], k, v => [(k, v)]
  | (k0, v0) :: rest, k, v =>
    if k0 = k then (k, v) :: rest else (k0, v0) :: natDictSet rest k v

/-- Python `dict.update`: set every binding of the second dict into the first,
in order, so entries of the second dict take precedence. -/
def natDictUpdate (d m : List (Nat × ErrorKind)) : List (Nat × ErrorKind) :=
  m.foldl (fun acc kv => natDictSet acc kv.1 kv.2) d

/-- Association-list lookup (Python `dict.get`). -/
def natDictGet : List (Nat × ErrorKind) → Nat → Option ErrorKind
  | [], _ => none
  | (k0, v0) :: rest, k => if k0 = k then some v0 else natDictGet rest k

/-- Embeds azure.core.exceptions.map_error as used by every generated operation:
look the status code up in the error map; a hit means that typed error is raised. -/
def map_error (status : Nat) (error_map : List (Nat × ErrorKind)) : Option ErrorKind :=
  natDictGet error_map status

/-- Embeds the response check shared by every generated operation:
`if response.status_code not in success: map_error(...); raise HttpResponseError(...)`.
Returns `none` when the status is in the operation's success list (nothing raised),
otherwise the typed error from the map, or the generic `HttpResponseError`. -/
def raiseForStatus (success : List Nat) (error_map : List (Nat × ErrorKind))
    (status : Nat) : Option ErrorKind :=
  if status ∈ success then none
  else
    match map_error status error_map with
    | some e => some e
    | none => some ErrorKind.httpResponse

/-- Default error_map of the compute v2015_06_15 operations (for example
`AvailabilitySetsOperations.get`/`list`): 401, 404, 409 and 304. -/
def availabilitySetsDefaultErrorMap : List (Nat × ErrorKind) :=
  [(401, ErrorKind.clientAuthentication), (404, ErrorKind.resourceNotFound),
   (409, ErrorKind.resourceExists), (304, ErrorKind.resourceNotModified)]

/-- Default error_map of the older-generation operations (containerservice
v2022_01_01 agent pools, datafactory factories, maps geolocation): only 401,
404 and 409 — no 304 entry. -/
def legacyDefaultErrorMap : List (Nat × ErrorKind) :=
  [(401, ErrorKind.clientAuthentication), (404, ErrorKind.resourceNotFound),
   (409, ErrorKind.resourceExists)]

/-- Embeds the response handling of `AvailabilitySetsOperations.get`
(compute v2015_06_15): error_map = defaults (with 304) updated with the caller's
map; success statuses `[200]`; on success the deserialized body is returned.
The pipeline call is abstracted into the `(status, body)` response argument. -/
def availabilitySets_get (error_map_arg : List (Nat × ErrorKind))
    (resp : Nat × α) : Except ErrorKind α :=
  let error_map := natDictUpdate availabilitySetsDefaultErrorMap error_map_arg
  match raiseForStatus [200] error_map resp.1 with
  | some e => Except.error e
  | none => Except.ok resp.2

/-- Embeds the response handling of `AgentPoolsOperations.get` (containerservice
v2022_01_01 aio): error_map = legacy defaults (no 304) updated with the caller's
map; success statuses `[200]`. -/
def agentPools_get (error_map_arg : List (Nat × ErrorKind))
    (resp : Nat × α) : Except ErrorKind α :=
  let error_map := natDictUpdate legacyDefaultErrorMap error_map_arg
  match raiseForStatus [200] error_map resp.1 with
  | some e => Except.error e
  | none => Except.ok resp.2

/-- Embeds the response handling of `GeolocationOperations.get_location`
(maps geolocation aio): legacy default error_map updated with the caller's map;
success statuses `[200]`. -/
def geolocation_get_location (error_map_arg : List (Nat × ErrorKind))
    (resp : Nat × α) : Except ErrorKind α :=
  let error_map := natDictUpdate legacyDefaultErrorMap error_map_arg
  match raiseForStatus [200] error_map resp.1 with
  | some e => Except.error e
  | none => Except.ok resp.2

/-- Embeds the response handling of `FactoriesOperations.get` (datafactory aio):
legacy default error_map (no 304 entry) updated with the caller's map, but the
success set is `[200, 304]`; `deserialized` stays `None` unless the status is 200,
so a 304 response returns `None` successfully. -/
def factories_get (error_map_arg : List (Nat × ErrorKind))
    (resp : Nat × α) : Except ErrorKind (Option α) :=
  let error_map := natDictUpdate legacyDefaultErrorMap error_map_arg
  match raiseForStatus [200, 304] error_map resp.1 with
  | some e => Except.error e
  | none => Except.ok (if resp.1 = 200 then some resp.2 else none)

/-- Deserialized list-result model of the paginated list operations: a
`next_link` attribute (`Optional[str]`) and a `value` item array.  The model
(de)serializer itself is the spec's external collaborator and is the identity
here. -/
structure ListResultPage (α : Type) where
  next_link : Option String
  value : List α
deriving DecidableEq, Repr

/-- Python `x or None` on an `Optional[str]`: the empty string is falsy and
collapses to `None`; any other string is returned unchanged. -/
def pyStrOrNone : Option String → Option String
  | none => none
  | some s => if s = "" then none else some s

/-- Embeds `extract_data` of `AvailabilitySetsOperations.list` (compute
v2015_06_15) — textually the same closure appears in
`AgentPoolsOperations.list` (containerservice v2022_01_01 aio): deserialize the
page and return `(deserialized.next_link or None, iter(deserialized.value))`. -/
def availabilitySets_list_extract_data (p : ListResultPage α) :
    Option String × List α :=
  (pyStrOrNone p.next_link, p.value)

/-- Embeds `extract_data` of `AvailabilitySetsOperations.list_available_sizes`
(compute v2015_06_15): the body deserializes into `VirtualMachineSizeListResult`,
which has no next-link attribute, and the closure returns
`(None, iter(deserialized.value))` — the continuation is `None` for every
response, whatever next link the raw body carries. -/
def availabilitySets_listAvailableSizes_extract_data (p : ListResultPage α) :
    Option String × List α :=
  (none, p.value)

/-- Embeds `get_next` of `AvailabilitySetsOperations.list` and
`list_available_sizes`: build the request for the continuation, run the
pipeline (the `server` argument — the spec's Operation Invoker — maps the
continuation to a `(status, body)` response), and raise the mapped typed error
(else the generic `HttpResponseError`) when the status is not in `[200]`. -/
def list_get_next (error_map_arg : List (Nat × ErrorKind))
    (server : Option String → Nat × ListResultPage α)
    (next_link : Option String) : Except ErrorKind (ListResultPage α) :=
  let error_map := natDictUpdate availabilitySetsDefaultErrorMap error_map_arg
  let resp := server next_link
  match raiseForStatus [200] error_map resp.1 with
  | some e => Except.error e
  | none => Except.ok resp.2

/-- Modelled from the spec: `azure.core.paging.ItemPaged`/`PageIterator` is code
of this repository (the azure-core package) that is not under src.  Per spec
section 4.2, the iterator starts with no stored cursor, on each pull calls
`get_next` with the current continuation and `extract_data` on its response,
yields that page's items, continues while the returned continuation is present
and stops when it is `None`; an error on a fetch is surfaced at that pull and
ends the iteration.  Returns (items yielded, error if any, number of page
requests issued); `fuel` bounds the recursion and is irrelevant whenever it is
at least the number of fetches performed. -/
def runItemPaged (get_next : Option String → Except E P)
    (extract_data : P → Option String × List α) :
    Nat → Option String → List α × Option E × Nat
  | 0, _ => ([], none, 0)
  | Nat.succ fuel, cont =>
    match get_next cont with
    | Except.error e => ([], some e, 1)
    | Except.ok page =>
      match extract_data page with
      | (none, items) => (items, none, 1)
      | (some nl, items) =>
        let r := runItemPaged get_next extract_data fuel (some nl)
        (items ++ r.1, r.2.1, r.2.2 + 1)

/-- Chain of successful page fetches: starting from continuation `c`, the
combined fetch (run `get_next`, then `extract_data`) yields these item lists in
order, ending with a page whose continuation is `None`. -/
inductive PageChain (fetch : Option String → Except E (Option String × List α)) :
    Option String → List (List α) → Prop where
  | last : ∀ c items, fetch c = Except.ok (none, items) → PageChain fetch c [items]
  | more : ∀ c nl items rest, fetch c = Except.ok (some nl, items) →
      PageChain fetch (some nl) rest → PageChain fetch c (items :: rest)

/-- Chain of successful page fetches from `c` that ends still holding the
pending continuation `c'` (the next fetch has not happened yet). -/
inductive PageChainTo (fetch : Option String → Except E (Option String × List α)) :
    Option String → List (List α) → Option String → Prop where
  | here : ∀ c, PageChainTo fetch c [] c
  | step : ∀ c nl items rest c', fetch c = Except.ok (some nl, items) →
      PageChainTo fetch (some nl) rest c' → PageChainTo fetch c (items :: rest) c'

/-- Client configuration fields the embedded operations read:
`subscription_id`, `api_version` and `polling_interval`. -/
structure ArmClientConfig where
  subscription_id : String
  api_version : String
  polling_interval : Nat
deriving DecidableEq, Repr

/-- Polling strategy object held by a poller: `ARMPolling(lro_delay)`,
`NoPolling()`, or a caller-provided strategy (opaque, identified by a tag). -/
inductive PollingMethodChoice where
  | armPolling (lro_delay : Nat)
  | noPolling
  | custom (tag : Nat)
deriving DecidableEq, Repr

/-- Value of the `polling` keyword argument of a `begin_X` operation:
`True` (the default), `False`, or a polling-method object. -/
inductive PollingArg where
  | pyTrue
  | pyFalse
  | method (m : PollingMethodChoice)
deriving DecidableEq, Repr

/-- How the returned poller is constructed at the end of a `begin_X` method:
via `from_continuation_token(token, ...)`, or fresh from the raw result of the
initiating call. -/
inductive PollerConstruction (R : Type) where
  | fromContinuationToken (token : String)
  | fresh (raw_result : R)
deriving DecidableEq, Repr

/-- Observable outcome of a `begin_X` call: how many initiating HTTP calls were
issued (runs of `_X_initial`), which polling method was selected, and how the
poller was constructed. -/
structure BeginResult (R : Type) where
  initial_requests : Nat
  polling_method : PollingMethodChoice
  poller : PollerConstruction R
deriving DecidableEq, Repr

/-- Embeds `AgentPoolsOperations.begin_create_or_update` (containerservice
v2022_01_01 aio): `lro_delay` is the `polling_interval` keyword else the client
configuration's; the initiating `_create_or_update_initial` call runs only when
`continuation_token` was not supplied (its response is the abstract
`initial_response`); `polling=True` selects `AsyncARMPolling(lro_delay)`,
`polling=False` selects `AsyncNoPolling()`, any other value is used as the
polling method itself; with a continuation token the poller is built by
`from_continuation_token`, otherwise from the raw result. -/
def agentPools_begin_create_or_update (cfg : ArmClientConfig)
    (polling : PollingArg) (polling_interval : Option Nat)
    (cont_token : Option String) (initial_response : R) : BeginResult R :=
  let lro_delay := polling_interval.getD cfg.polling_interval
  let polling_method :=
    match polling with
    | PollingArg.pyTrue => PollingMethodChoice.armPolling lro_delay
    | PollingArg.pyFalse => PollingMethodChoice.noPolling
    | PollingArg.method m => m
  match cont_token with
  | some t =>
    { initial_requests := 0, polling_method := polling_method,
      poller := PollerConstruction.fromContinuationToken t }
  | none =>
    { initial_requests := 1, polling_method := polling_method,
      poller := PollerConstruction.fresh initial_response }

/-- Embeds `CloudServicesUpdateDomainOperations.begin_walk_update_domain`
(compute v2021_03_01): identical `continuation_token` / `polling` /
`polling_interval` structure around `_walk_update_domain_initial`. -/
def cloudServicesUpdateDomain_begin_walk_update_domain (cfg : ArmClientConfig)
    (polling : PollingArg) (polling_interval : Option Nat)
    (cont_token : Option String) (initial_response : R) : BeginResult R :=
  let lro_delay := polling_interval.getD cfg.polling_interval
  let polling_method :=
    match polling with
    | PollingArg.pyTrue => PollingMethodChoice.armPolling lro_delay
    | PollingArg.pyFalse => PollingMethodChoice.noPolling
    | PollingArg.method m => m
  match cont_token with
  | some t =>
    { initial_requests := 0, polling_method := polling_method,
      poller := PollerConstruction.fromContinuationToken t }
  | none =>
    { initial_requests := 1, polling_method := polling_method,
      poller := PollerConstruction.fresh initial_response }

/-- Embeds `VirtualMachineScaleSetVMExtensionsOperations.begin_create_or_update`
(compute v2019_12_01 aio): identical `continuation_token` / `polling` /
`polling_interval` structure around `_create_or_update_initial`. -/
def vmssVMExtensions_begin_create_or_update (cfg : ArmClientConfig)
    (polling : PollingArg) (polling_interval : Option Nat)
    (cont_token : Option String) (initial_response : R) : BeginResult R :=
  let lro_delay := polling_interval.getD cfg.polling_interval
  let polling_method :=
    match polling with
    | PollingArg.pyTrue => PollingMethodChoice.armPolling lro_delay
    | PollingArg.pyFalse => PollingMethodChoice.noPolling
    | PollingArg.method m => m
  match cont_token with
  | some t =>
    { initial_requests := 0, polling_method := polling_method,
      poller := PollerConstruction.fromContinuationToken t }
  | none =>
    { initial_requests := 1, polling_method := polling_method,
      poller := PollerConstruction.fresh initial_response }

/-- Modelled from the spec: the ARM polling loop of azure.core / azure.mgmt.core
(repository code not under src).  Per spec section 4.1, the poller repeatedly
consumes poll responses until the current one is terminal, counting one request
per tick; `isTerminal` is the active convention's terminal rule. -/
def armPollLoop (isTerminal : R → Bool) : R → List R → R × Nat
  | cur, [] => (cur, 0)
  | cur, p :: ps =>
    if isTerminal cur then (cur, 0)
    else
      let r := armPollLoop isTerminal p ps
      (r.1, r.2 + 1)

/-- Modelled from the spec: running a polling method (azure.core polling, code
of this repository not under src) over the raw initial response and the stream
of poll responses the server would give.  With `NoPolling` the handle "is
immediately terminal using the raw initial response, no polling performed"
(spec section 4.1); with `ARMPolling` the loop above runs; a caller-supplied
strategy is external and its behavior is unknown (`none`).  Returns the final
response and the number of polling HTTP requests. -/
def runPollingMethod (isTerminal : R → Bool) (m : PollingMethodChoice)
    (initial_response : R) (polls : List R) : Option (R × Nat) :=
  match m with
  | PollingMethodChoice.noPolling => some (initial_response, 0)
  | PollingMethodChoice.armPolling _ => some (armPollLoop isTerminal initial_response polls)
  | PollingMethodChoice.custom _ => none

/-- State of a constructed `TableClient` that claim C10 observes. -/
structure TableClientState where
  table_name : String
  endpoint : String
deriving DecidableEq, Repr

/-- Embeds `TableClient.__init__` (azure-data-tables): a falsy `table_name`
(the empty string) raises `ValueError("Please specify a table name.")` before
the `table_name` attribute is set and before the base-client construction (the
only further work the constructor does — no network call happens); otherwise the
`table_name` attribute is the argument and the base client is built on the
endpoint. -/
def tableClient_init (endpoint : String) (table_name : String) :
    Except String TableClientState :=
  if table_name = "" then Except.error "Please specify a table name."
  else Except.ok { table_name := table_name, endpoint := endpoint }

/-- Request descriptor built by the operations: HTTP method, URL, and query
parameters (ordered, with case-insensitive-dict write semantics).  Headers and
body are not involved in the claims and are omitted. -/
structure HttpRequestModel where
  method : String
  url : String
  params : List (String × String)
deriving DecidableEq, Repr

/-- Case-insensitive key comparison of azure.core's case_insensitive_dict. -/
def cidKeyEq (a b : String) : Bool := a.toLower == b.toLower

/-- Write into a case_insensitive_dict: replace the first case-insensitive
match in place (storing the new key casing), otherwise append. -/
def cidSet : List (String × String) → String → String → List (String × String)
  | [], k, v => [(k, v)]
  | (k0, v0) :: rest, k, v =>
    if cidKeyEq k0 k then (k, v) :: rest else (k0, v0) :: cidSet rest k v

/-- Models urllib.parse: split a URL's characters at the first `?` into the
part before it and (when present) the part after it (the query string). -/
def splitAtQuery : List Char → List Char × Option (List Char)
  | [] => ([], none)
  | c :: cs =>
    if c = '?' then ([], some cs)
    else
      let r := splitAtQuery cs
      (c :: r.1, r.2)

/-- Models urllib.parse: split a query-free URL's characters into the
`scheme://netloc` part and the path that follows (the path starts at the first
`/` after the first `://`; with no `://` everything lands in the first part,
which is all the later proofs use). -/
def netlocSplit : List Char → List Char × List Char
  | [] => ([], [])
  | c :: cs =>
    if c = ':' ∧ cs.take 2 = ['/', '/'] then
      (c :: cs.take 2 ++ (cs.drop 2).takeWhile (fun x => x ≠ '/'),
       (cs.drop 2).dropWhile (fun x => x ≠ '/'))
    else
      let r := netlocSplit cs
      (c :: r.1, r.2)

/-- Models `urlparse(url).path`: the path component of an absolute URL. -/
def urlparse_path (url : String) : String :=
  ((netlocSplit (splitAtQuery url.data).1).2).asString

/-- Models `urlparse(url).query`: everything after the first `?` (empty when
there is none). -/
def urlparse_query (url : String) : String :=
  ((splitAtQuery url.data).2.getD []).asString

/-- Models `urljoin(base, url)` for the uses in the generated code: joining a
base URL with an absolute path replaces the base's path and query by that path;
an empty url returns the base; other reference forms (full URLs, relative
paths) are returned as-is — the generated code only ever joins a link with that
same link's own absolute path. -/
def urljoin (base url : String) : String :=
  match url.data with
  | [] => base
  | '/' :: _ => ((netlocSplit (splitAtQuery base.data).1).1).asString ++ url
  | _ => url

/-- Split a list of characters on `&` (separator dropped). -/
def splitOnAmp : List Char → List (List Char)
  | [] => [[]]
  | c :: cs =>
    let r := splitOnAmp cs
    if c = '&' then [] :: r
    else
      match r with
      | [] => [[c]]
      | h :: t => (c :: h) :: t

/-- Split a list of characters at the first `=`, when there is one. -/
def splitAtEq : List Char → Option (List Char × List Char)
  | [] => none
  | c :: cs =>
    if c = '=' then some ([], cs)
    else
      match splitAtEq cs with
      | none => none
      | some r => some (c :: r.1, r.2)

/-- One `k=v` field of a query string; fields without `=` or with an empty
value are dropped (parse_qs's default keep_blank_values=False). -/
def parseQsPair (l : List Char) : Option (String × String) :=
  match splitAtEq l with
  | none => none
  | some (k, v) => if v = [] then none else some (k.asString, v.asString)

/-- Models urllib.parse.parse_qs at the key/value level: the fields of the
query string in order.  (Python groups duplicate keys into a list-valued dict;
the claims only concern which keys/values are present, and the links under test
carry no duplicate keys.) -/
def parse_qs (query : String) : List (String × String) :=
  (splitOnAmp query.data).filterMap parseQsPair

/-- Replace every occurrence of `pat` in `l` by `rep`, scanning left to right;
`fuel` bounds the scan and is the list length at the call site. -/
def replaceSubAux : Nat → List Char → List Char → List Char → List Char
  | 0, l, _, _ => l
  | Nat.succ fuel, l, pat, rep =>
    match l with
    | [] => []
    | c :: cs =>
      if pat ≠ [] ∧ pat.isPrefixOf l then rep ++ replaceSubAux fuel (l.drop pat.length) pat rep
      else c :: replaceSubAux fuel cs pat rep

/-- Models Python `str.replace` (for the non-empty patterns used here). -/
def pyReplace (s pat rep : String) : String :=
  (replaceSubAux s.data.length s.data pat.data rep.data).asString

/-- Models azure's `_format_url_section`: substitute each `\x7bname\x7d`
placeholder of the URL template by its serialized argument. -/
def format_url_section (template : String) (args : List (String × String)) : String :=
  args.foldl (fun t kv => pyReplace t ("\x7b" ++ kv.1 ++ "\x7d") kv.2) template

/-- URL template of `AvailabilitySetsOperations.list` (its `metadata["url"]`). -/
def availabilitySets_list_template_url : String :=
  "/subscriptions/\x7bsubscriptionId\x7d/resourceGroups/\x7bresourceGroupName\x7d/providers/Microsoft.Compute/availabilitySets"

/-- Embeds `build_list_request` of the compute v2015_06_15 operations module:
a GET request on the template URL with the path arguments substituted, whose
query parameters are the caller's params with `api-version` set. -/
def build_list_request (resource_group_name subscription_id api_version : String)
    (template_url : String) (params0 : List (String × String)) : HttpRequestModel :=
  { method := "GET",
    url := format_url_section template_url
      [("resourceGroupName", resource_group_name), ("subscriptionId", subscription_id)],
    params := cidSet params0 "api-version" api_version }

/-- Embeds `prepare_request` of `AvailabilitySetsOperations.list` (compute
v2015_06_15).  No (or falsy) continuation link: build the initial request from
the operation's template URL and parameters.  Otherwise: parse the link, take
its query fields into a case_insensitive_dict, overwrite `api-version` with the
client configuration's `api_version`, and issue a GET to
`urljoin(next_link, parsed.path)` with those parameters.  (`_convert_request`
and `format_url` leave an absolute URL unchanged and are omitted.) -/
def availabilitySets_list_prepare_request (cfg : ArmClientConfig)
    (resource_group_name api_version : String) (params0 : List (String × String))
    (next_link : Option String) : HttpRequestModel :=
  match pyStrOrNone next_link with
  | none =>
    build_list_request resource_group_name cfg.subscription_id api_version
      availabilitySets_list_template_url params0
  | some nl =>
    { method := "GET",
      url := urljoin nl (urlparse_path nl),
      params := cidSet (parse_qs (urlparse_query nl)) "api-version" cfg.api_version }

/-- URL template of `AgentPoolsOperations.list` (its `metadata['url']`). -/
def agentPools_list_template_url : String :=
  "/subscriptions/\x7bsubscriptionId\x7d/resourceGroups/\x7bresourceGroupName\x7d/providers/Microsoft.ContainerService/managedClusters/\x7bresourceName\x7d/agentPools"

/-- Modelled from the spec: `build_list_request` of the containerservice
v2022_01_01 sync operations module is imported by the aio module under src but
its own module is not under src.  Per the spec's request-builder role (build a
GET request for the operation's URL template carrying the `api-version` query
parameter), it substitutes the path arguments into the template URL it is given
and attaches `api-version`; it does not parse or rewrite a query string already
embedded in that URL. -/
def containerservice_build_list_request
    (subscription_id resource_group_name resource_name api_version : String)
    (template_url : String) : HttpRequestModel :=
  { method := "GET",
    url := format_url_section template_url
      [("subscriptionId", subscription_id), ("resourceGroupName", resource_group_name),
       ("resourceName", resource_name)],
    params := [("api-version", api_version)] }

/-- Embeds `prepare_request` of `AgentPoolsOperations.list` (containerservice
v2022_01_01 aio): with no (or falsy) continuation link, `build_list_request` on
the operation's template URL; with a continuation link, `build_list_request`
with `template_url=next_link` — the same operation-level `api_version` argument
in both branches, and the link itself is never parsed. -/
def agentPools_list_prepare_request (cfg : ArmClientConfig)
    (resource_group_name resource_name api_version : String)
    (next_link : Option String) : HttpRequestModel :=
  match pyStrOrNone next_link with
  | none =>
    containerservice_build_list_request cfg.subscription_id resource_group_name
      resource_name api_version agentPools_list_template_url
  | some nl =>
    containerservice_build_list_request cfg.subscription_id resource_group_name
      resource_name api_version nl

/-- Claim-side definition, written from the words of claim C1 and spec section
4.2: the next-page request is a GET to the continuation link's URL (the link
without its query string) whose query parameters are the link's own query
parameters with `api-version` replaced by the client's configured
`api_version`. -/
def claimNextPageRequest (cfg : ArmClientConfig) (next_link : String) : HttpRequestModel :=
  { method := "GET",
    url := ((splitAtQuery next_link.data).1).asString,
    params := cidSet (parse_qs (urlparse_query next_link)) "api-version" cfg.api_version }

/-- Concrete client configuration used by the witnesses. -/
def demoConfig : ArmClientConfig :=
  { subscription_id := "sub-0000", api_version := "2022-01-01", polling_interval := 30 }

/-- Concrete two-page server for the witnesses (the spec's section 8 scenario:
first page `[A, B]` with a next link, second page `[C]` with none). -/
def demoPagingServer : Option String → Nat × ListResultPage String
  | none => (200, { next_link := some "https://x/list?cursor=2", value := ["A", "B"] })
  | some _ => (200, { next_link := none, value := ["C"] })

/-- Concrete server whose second page fetch fails with HTTP 404. -/
def demoFailingServer : Option String → Nat × ListResultPage String
  | none => (200, { next_link := some "https://x/list?cursor=2", value := ["A", "B"] })
  | some _ => (404, { next_link := none, value := [] })

theorem natDictGet_natDictSet (d : List (Nat × ErrorKind)) (k : Nat) (v : ErrorKind)
    (k' : Nat) :
    natDictGet (natDictSet d k v) k' = if k = k' then some v else natDictGet d k' := by
  induction d with
  | nil => simp [natDictSet, natDictGet]
  | cons hd tl ih =>
    obtain ⟨k0, v0⟩ := hd
    by_cases h0 : k0 = k
    · subst h0
      by_cases h1 : k0 = k'
      · subst h1; simp [natDictSet, natDictGet]
      · simp [natDictSet, natDictGet, h1]
    · by_cases h1 : k0 = k'
      · subst h1
        have : ¬ k = k0 := fun h => h0 h.symm
        simp [natDictSet, natDictGet, h0, this]
      · simp [natDictSet, natDictGet, h0, h1, ih]

theorem natDictGet_eq_none_of_not_mem (m : List (Nat × ErrorKind)) (k : Nat)
    (h : k ∉ m.map Prod.fst) : natDictGet m k = none := by
  induction m with
  | nil => simp [natDictGet]
  | cons hd tl ih =>
    obtain ⟨k0, v0⟩ := hd
    simp only [List.map_cons, List.mem_cons, not_or] at h
    have hk : ¬ k0 = k := fun e => h.1 e.symm
    simp [natDictGet, hk, ih h.2]

theorem natDictGet_natDictUpdate (d m : List (Nat × ErrorKind)) (k : Nat)
    (hm : (m.map Prod.fst).Nodup) :
    natDictGet (natDictUpdate d m) k =
      match natDictGet m k with
      | some v => some v
      | none => natDictGet d k := by
  induction m generalizing d with
  | nil => simp [natDictUpdate, natDictGet]
  | cons hd tl ih =>
    obtain ⟨k0, v0⟩ := hd
    simp only [List.map_cons, List.nodup_cons] at hm
    have step : natDictUpdate d ((k0, v0) :: tl) = natDictUpdate (natDictSet d k0 v0) tl := rfl
    rw [step, ih _ hm.2]
    by_cases h0 : k0 = k
    · subst h0
      have htl : natDictGet tl k0 = none :=
        natDictGet_eq_none_of_not_mem tl k0 hm.1
      simp [natDictGet, htl, natDictGet_natDictSet]
    · simp [natDictGet, h0, natDictGet_natDictSet]

theorem natDictGet_natDictUpdate_of_absent (d m : List (Nat × ErrorKind)) (k : Nat)
    (hm : natDictGet m k = none) :
    natDictGet (natDictUpdate d m) k = natDictGet d k := by
  induction m generalizing d with
  | nil => simp [natDictUpdate]
  | cons hd tl ih =>
    obtain ⟨k0, v0⟩ := hd
    simp only [natDictGet] at hm
    by_cases h0 : k0 = k
    · simp [h0] at hm
    · rw [if_neg h0] at hm
      have step : natDictUpdate d ((k0, v0) :: tl) = natDictUpdate (natDictSet d k0 v0) tl := rfl
      rw [step, ih _ hm, natDictGet_natDictSet, if_neg h0]

/-- Claim C5: for every operation, a response status outside the operation's
success set raises the error determined by one map per call — the default
mapping (401 authentication, 404 not-found, 409 exists, and, where present,
304 not-modified) updated with the caller-supplied error_map so caller entries
take precedence — falling back to the generic `HttpResponseError` for unmapped
statuses, while a status in the success set raises nothing.  Shown for
`AvailabilitySetsOperations.get` (success `[200]`, defaults with 304),
`FactoriesOperations.get` (success `[200, 304]`, legacy defaults) and
`GeolocationOperations.get_location` (success `[200]`, legacy defaults); the
caller map is any Python dict (distinct keys). -/
theorem status_to_error_single_map_policy {α : Type}
    (em : List (Nat × ErrorKind)) (s : Nat) (b : α)
    (hm : (em.map Prod.fst).Nodup) :
    (natDictGet availabilitySetsDefaultErrorMap 401 = some ErrorKind.clientAuthentication ∧
     natDictGet availabilitySetsDefaultErrorMap 404 = some ErrorKind.resourceNotFound ∧
     natDictGet availabilitySetsDefaultErrorMap 409 = some ErrorKind.resourceExists ∧
     natDictGet availabilitySetsDefaultErrorMap 304 = some ErrorKind.resourceNotModified ∧
     natDictGet legacyDefaultErrorMap 401 = some ErrorKind.clientAuthentication ∧
     natDictGet legacyDefaultErrorMap 404 = some ErrorKind.resourceNotFound ∧
     natDictGet legacyDefaultErrorMap 409 = some ErrorKind.resourceExists ∧
     natDictGet legacyDefaultErrorMap 304 = none) ∧
    (availabilitySets_get em ((200 : Nat), b) = Except.ok b) ∧
    (factories_get em ((200 : Nat), b) = Except.ok (some b)) ∧
    (factories_get em ((304 : Nat), b) = Except.ok none) ∧
    (geolocation_get_location em ((200 : Nat), b) = Except.ok b) ∧
    (s ∉ [200] →
      availabilitySets_get em (s, b) =
        Except.error
          (match natDictGet em s with
           | some e => e
           | none =>
             match natDictGet availabilitySetsDefaultErrorMap s with
             | some e => e
             | none => ErrorKind.httpResponse)) ∧
    (s ∉ [200, 304] →
      factories_get em (s, b) =
        Except.error
          (match natDictGet em s with
           | some e => e
           | none =>
             match natDictGet legacyDefaultErrorMap s with
             | some e => e
             | none => ErrorKind.httpResponse)) ∧
    (s ∉ [200] →
      geolocation_get_location em (s, b) =
        Except.error
          (match natDictGet em s with
           | some e => e
           | none =>
             match natDictGet legacyDefaultErrorMap s with
             | some e => e
             | none => ErrorKind.httpResponse)) := by
  refine ⟨⟨rfl, rfl, rfl, rfl, rfl, rfl, rfl, rfl⟩, ?_, ?_, ?_, ?_, ?_, ?_, ?_⟩
  · simp [availabilitySets_get, raiseForStatus]
  · simp [factories_get, raiseForStatus]
  · simp [factories_get, raiseForStatus]
  · simp [geolocation_get_location, raiseForStatus]
  · intro hns
    simp only [availabilitySets_get, raiseForStatus, map_error,
      natDictGet_natDictUpdate _ _ _ hm, if_neg hns]
    cases natDictGet em s <;> cases natDictGet availabilitySetsDefaultErrorMap s <;> rfl
  · intro hns
    simp only [factories_get, raiseForStatus, map_error,
      natDictGet_natDictUpdate _ _ _ hm, if_neg hns]
    cases natDictGet em s <;> cases natDictGet legacyDefaultErrorMap s <;> rfl
  · intro hns
    simp only [geolocation_get_location, raiseForStatus, map_error,
      natDictGet_natDictUpdate _ _ _ hm, if_neg hns]
    cases natDictGet em s <;> cases natDictGet legacyDefaultErrorMap s <;> rfl

/-- Witness for C5: a caller error_map overriding 404 with a custom error takes
precedence at status 404 on `AvailabilitySetsOperations.get`, while an unmapped
418 falls back to the generic `HttpResponseError`. -/
theorem status_to_error_single_map_policy_witness :
    ([(404, ErrorKind.custom 7)].map (Prod.fst (α := Nat) (β := ErrorKind))).Nodup ∧
    (404 : Nat) ∉ [200] ∧ (418 : Nat) ∉ [200] ∧
    availabilitySets_get [(404, ErrorKind.custom 7)] ((404 : Nat), "b") =
      Except.error (ErrorKind.custom 7) ∧
    availabilitySets_get [(404, ErrorKind.custom 7)] ((418 : Nat), "b") =
      Except.error ErrorKind.httpResponse := by
  refine ⟨by decide, by decide, by decide, ?_, ?_⟩
  · exact (status_to_error_single_map_policy [(404, ErrorKind.custom 7)] 404 "b"
      (by decide)).2.2.2.2.2.1 (by decide)
  · exact (status_to_error_single_map_policy [(404, ErrorKind.custom 7)] 418 "b"
      (by decide)).2.2.2.2.2.1 (by decide)

/-- Counterexample to claim C6 as stated: `FactoriesOperations.get` includes
304 in its success set, so a 304 response (conditional GET with a matching
ETag) is returned to the caller as a successful `None` — not surfaced as the
not-modified typed error. -/
theorem factories_get_304_is_success :
    factories_get ([] : List (Nat × ErrorKind)) ((304 : Nat), "factory-body") =
      Except.ok none := rfl

/-- Claim C6 as amended: for every caller error_map that does not itself map
304, an operation whose default error_map carries the 304 entry
(`AvailabilitySetsOperations.get`) surfaces a 304 response as the
`ResourceNotModifiedError` typed error; an older-generation operation without
that entry (`AgentPoolsOperations.get`) surfaces it as the generic
`HttpResponseError`; and `FactoriesOperations.get`, whose success set contains
304 for conditional requests, returns `None` successfully — so 304 is never a
successful return carrying a resource body, but it is an error only where 304
is outside the success set. -/
theorem status_304_handling {α : Type} (em : List (Nat × ErrorKind)) (b : α)
    (h304 : natDictGet em 304 = none) :
    availabilitySets_get em ((304 : Nat), b) = Except.error ErrorKind.resourceNotModified ∧
    agentPools_get em ((304 : Nat), b) = Except.error ErrorKind.httpResponse ∧
    factories_get em ((304 : Nat), b) = Except.ok none := by
  refine ⟨?_, ?_, ?_⟩
  · simp [availabilitySets_get, raiseForStatus, map_error,
      natDictGet_natDictUpdate_of_absent _ _ _ h304]
    rfl
  · simp [agentPools_get, raiseForStatus, map_error,
      natDictGet_natDictUpdate_of_absent _ _ _ h304]
    rfl
  · simp [factories_get, raiseForStatus]

/-- Witness for the amended C6 at the empty caller error_map. -/
theorem status_304_handling_witness :
    natDictGet ([] : List (Nat × ErrorKind)) 304 = none ∧
    availabilitySets_get ([] : List (Nat × ErrorKind)) ((304 : Nat), "b") =
      Except.error ErrorKind.resourceNotModified ∧
    agentPools_get ([] : List (Nat × ErrorKind)) ((304 : Nat), "b") =
      Except.error ErrorKind.httpResponse ∧
    factories_get ([] : List (Nat × ErrorKind)) ((304 : Nat), "b") = Except.ok none := by
  refine ⟨rfl, ?_⟩
  exact status_304_handling ([] : List (Nat × ErrorKind)) "b" rfl

/-- Claim C2: the continuation returned by `extract_data` of the paginated list
operations is `None` exactly when the deserialized `next_link` is absent or
empty, the decision is independent of the page's item list, and the items
returned are exactly the page's `value` array. -/
theorem extract_data_continuation_iff_next_link {α : Type}
    (p : ListResultPage α) (v' : List α) :
    ((availabilitySets_list_extract_data p).1 = none ↔
      p.next_link = none ∨ p.next_link = some "") ∧
    (availabilitySets_list_extract_data { next_link := p.next_link, value := v' }).1 =
      (availabilitySets_list_extract_data p).1 ∧
    (availabilitySets_list_extract_data p).2 = p.value := by
  refine ⟨?_, rfl, rfl⟩
  cases hnl : p.next_link with
  | none => simp [availabilitySets_list_extract_data, pyStrOrNone, hnl]
  | some s =>
    by_cases hs : s = ""
    · subst hs; simp [availabilitySets_list_extract_data, pyStrOrNone, hnl]
    · simp [availabilitySets_list_extract_data, pyStrOrNone, hnl, hs]

theorem runItemPaged_of_pageChain {E P α : Type}
    (get_next : Option String → Except E P)
    (extract_data : P → Option String × List α)
    {c : Option String} {pss : List (List α)}
    (h : PageChain (fun c => (get_next c).map extract_data) c pss) :
    ∀ fuel, pss.length ≤ fuel →
      runItemPaged get_next extract_data fuel c = (pss.flatten, none, pss.length) := by
  induction h with
  | last c items hfetch =>
    intro fuel hf
    cases fuel with
    | zero => simp at hf
    | succ f =>
      cases hget : get_next c with
      | error e => rw [hget] at hfetch; simp [Except.map] at hfetch
      | ok page =>
        rw [hget] at hfetch
        simp only [Except.map, Except.ok.injEq] at hfetch
        simp [runItemPaged, hget, hfetch]
  | more c nl items rest hfetch hchain ih =>
    intro fuel hf
    cases fuel with
    | zero => simp at hf
    | succ f =>
      cases hget : get_next c with
      | error e => rw [hget] at hfetch; simp [Except.map] at hfetch
      | ok page =>
        rw [hget] at hfetch
        simp only [Except.map, Except.ok.injEq] at hfetch
        have hrest : rest.length ≤ f := by
          simp only [List.length_cons] at hf; omega
        simp [runItemPaged, hget, hfetch, ih f hrest]

theorem runItemPaged_of_pageChainTo {E P α : Type}
    (get_next : Option String → Except E P)
    (extract_data : P → Option String × List α)
    {c c' : Option String} {pss : List (List α)} {e : E}
    (h : PageChainTo (fun c => (get_next c).map extract_data) c pss c')
    (he : get_next c' = Except.error e) :
    ∀ fuel, pss.length + 1 ≤ fuel →
      runItemPaged get_next extract_data fuel c = (pss.flatten, some e, pss.length + 1) := by
  induction h with
  | here c =>
    intro fuel hf
    cases fuel with
    | zero => simp at hf
    | succ f => simp [runItemPaged, he]
  | step c nl items rest c'' hfetch hchain ih =>
    intro fuel hf
    cases fuel with
    | zero => simp at hf
    | succ f =>
      cases hget : get_next c with
      | error e0 => rw [hget] at hfetch; simp [Except.map] at hfetch
      | ok page =>
        rw [hget] at hfetch
        simp only [Except.map, Except.ok.injEq] at hfetch
        have hrest : rest.length + 1 ≤ f := by
          simp only [List.length_cons] at hf; omega
        simp [runItemPaged, hget, hfetch, ih he f hrest]

/-- Claim C8: for a finite chain of successful page responses ending in one
with no next link, iterating the pager of `AvailabilitySetsOperations.list`
yields exactly the concatenation of the pages' `value` arrays in fetch order
(intra-page order preserved), with no error and exactly one HTTP request per
page. -/
theorem availabilitySets_list_yields_page_concatenation {α : Type}
    (em : List (Nat × ErrorKind)) (server : Option String → Nat × ListResultPage α)
    (pss : List (List α)) (fuel : Nat)
    (h : PageChain
      (fun c => (list_get_next em server c).map availabilitySets_list_extract_data)
      none pss)
    (hf : pss.length ≤ fuel) :
    runItemPaged (list_get_next em server) availabilitySets_list_extract_data fuel none =
      (pss.flatten, none, pss.length) :=
  runItemPaged_of_pageChain _ _ h fuel hf

/-- Witness for C8 on the spec's concrete scenario: pages `[A, B]` then `[C]`;
`items()` yields `[A, B, C]` in two requests. -/
theorem availabilitySets_list_yields_page_concatenation_witness :
    PageChain
      (fun c => (list_get_next ([] : List (Nat × ErrorKind)) demoPagingServer c).map
        availabilitySets_list_extract_data) none [["A", "B"], ["C"]] ∧
    ([["A", "B"], ["C"]].length ≤ 2 ∧
      runItemPaged (list_get_next ([] : List (Nat × ErrorKind)) demoPagingServer)
        availabilitySets_list_extract_data 2 none = (["A", "B", "C"], none, 2)) := by
  have hchain : PageChain
      (fun c => (list_get_next ([] : List (Nat × ErrorKind)) demoPagingServer c).map
        availabilitySets_list_extract_data) none [["A", "B"], ["C"]] :=
    PageChain.more none "https://x/list?cursor=2" ["A", "B"] [["C"]] rfl
      (PageChain.last (some "https://x/list?cursor=2") ["C"] rfl)
  exact ⟨hchain, by decide,
    availabilitySets_list_yields_page_concatenation ([] : List (Nat × ErrorKind))
      demoPagingServer [["A", "B"], ["C"]] 2 hchain (by decide)⟩

/-- Claim C7: when a page fetch of `AvailabilitySetsOperations.list` answers
with a status outside `[200]`, the pager raises the error from the per-call map
(default map updated with the caller's, generic `HttpResponseError` when
unmapped) at that pull: no items of the failing response are yielded, and the
items of the pages fetched before the failure are exactly what was yielded. -/
theorem availabilitySets_list_failure_semantics {α : Type}
    (em : List (Nat × ErrorKind)) (server : Option String → Nat × ListResultPage α)
    (pss : List (List α)) (c' : Option String) (fuel : Nat) (s : Nat)
    (body : ListResultPage α)
    (hchain : PageChainTo
      (fun c => (list_get_next em server c).map availabilitySets_list_extract_data)
      none pss c')
    (hresp : server c' = (s, body)) (hs : s ∉ [200]) (hf : pss.length + 1 ≤ fuel) :
    runItemPaged (list_get_next em server) availabilitySets_list_extract_data fuel none =
      (pss.flatten,
       some (match natDictGet (natDictUpdate availabilitySetsDefaultErrorMap em) s with
             | some e => e
             | none => ErrorKind.httpResponse),
       pss.length + 1) := by
  refine runItemPaged_of_pageChainTo _ _ hchain ?_ fuel hf
  simp only [list_get_next, raiseForStatus, map_error, hresp]
  rw [if_neg hs]
  cases natDictGet (natDictUpdate availabilitySetsDefaultErrorMap em) s <;> rfl

/-- Witness for C7: the second page fetch fails with 404; the first page's
items stay yielded and the typed not-found error is raised at the second pull. -/
theorem availabilitySets_list_failure_semantics_witness :
    PageChainTo
      (fun c => (list_get_next ([] : List (Nat × ErrorKind)) demoFailingServer c).map
        availabilitySets_list_extract_data) none [["A", "B"]]
      (some "https://x/list?cursor=2") ∧
    demoFailingServer (some "https://x/list?cursor=2") =
      (404, { next_link := none, value := [] }) ∧
    ((404 : Nat) ∉ [200] ∧
      runItemPaged (list_get_next ([] : List (Nat × ErrorKind)) demoFailingServer)
        availabilitySets_list_extract_data 2 none =
        (["A", "B"], some ErrorKind.resourceNotFound, 2)) := by
  have hchain : PageChainTo
      (fun c => (list_get_next ([] : List (Nat × ErrorKind)) demoFailingServer c).map
        availabilitySets_list_extract_data) none [["A", "B"]]
      (some "https://x/list?cursor=2") :=
    PageChainTo.step none "https://x/list?cursor=2" ["A", "B"] []
      (some "https://x/list?cursor=2") rfl
      (PageChainTo.here (some "https://x/list?cursor=2"))
  exact ⟨hchain, rfl, by decide,
    availabilitySets_list_failure_semantics ([] : List (Nat × ErrorKind))
      demoFailingServer [["A", "B"]] (some "https://x/list?cursor=2") 2 404
      { next_link := none, value := [] } hchain rfl (by decide) (by decide)⟩

/-- Claim C9: `extract_data` of `list_available_sizes` returns `None` as the
continuation for every response body, so the pager issues exactly one HTTP
request and yields only the first response's items — also when that body
carries a next link. -/
theorem listAvailableSizes_single_request {α : Type}
    (em : List (Nat × ErrorKind)) (server : Option String → Nat × ListResultPage α)
    (page : ListResultPage α) (fuel : Nat)
    (hresp : server none = (200, page)) (hf : 1 ≤ fuel) :
    (∀ q : ListResultPage α,
      (availabilitySets_listAvailableSizes_extract_data q).1 = none) ∧
    runItemPaged (list_get_next em server)
      availabilitySets_listAvailableSizes_extract_data fuel none =
      (page.value, none, 1) := by
  refine ⟨fun q => rfl, ?_⟩
  cases fuel with
  | zero => omega
  | succ f =>
    simp [runItemPaged, list_get_next, hresp, raiseForStatus, map_error,
      availabilitySets_listAvailableSizes_extract_data]

/-- Witness for C9: the first response carries a next link, yet a single
request is made and only its items are yielded. -/
theorem listAvailableSizes_single_request_witness :
    demoPagingServer none =
      (200, { next_link := some "https://x/list?cursor=2", value := ["A", "B"] }) ∧
    ((1 : Nat) ≤ 1 ∧
      runItemPaged (list_get_next ([] : List (Nat × ErrorKind)) demoPagingServer)
        availabilitySets_listAvailableSizes_extract_data 1 none =
        (["A", "B"], none, 1)) := by
  exact ⟨rfl, by decide,
    (listAvailableSizes_single_request ([] : List (Nat × ErrorKind)) demoPagingServer
      { next_link := some "https://x/list?cursor=2", value := ["A", "B"] } 1 rfl
      (by decide)).2⟩

/-- Claim C3: in every embedded `begin_X` operation, a supplied
`continuation_token` means the initiating call is never issued and the poller
is built by `from_continuation_token` from that token; without one, exactly one
initiating call is issued and the poller is built fresh from its raw result. -/
theorem begin_operations_continuation_token {R : Type} (cfg : ArmClientConfig)
    (polling : PollingArg) (pi : Option Nat) (t : String) (init : R) :
    (agentPools_begin_create_or_update cfg polling pi (some t) init).initial_requests = 0 ∧
    (agentPools_begin_create_or_update cfg polling pi (some t) init).poller =
      PollerConstruction.fromContinuationToken t ∧
    (agentPools_begin_create_or_update cfg polling pi none init).initial_requests = 1 ∧
    (agentPools_begin_create_or_update cfg polling pi none init).poller =
      PollerConstruction.fresh init ∧
    (cloudServicesUpdateDomain_begin_walk_update_domain cfg polling pi (some t) init).initial_requests = 0 ∧
    (cloudServicesUpdateDomain_begin_walk_update_domain cfg polling pi (some t) init).poller =
      PollerConstruction.fromContinuationToken t ∧
    (cloudServicesUpdateDomain_begin_walk_update_domain cfg polling pi none init).initial_requests = 1 ∧
    (cloudServicesUpdateDomain_begin_walk_update_domain cfg polling pi none init).poller =
      PollerConstruction.fresh init ∧
    (vmssVMExtensions_begin_create_or_update cfg polling pi (some t) init).initial_requests = 0 ∧
    (vmssVMExtensions_begin_create_or_update cfg polling pi (some t) init).poller =
      PollerConstruction.fromContinuationToken t ∧
    (vmssVMExtensions_begin_create_or_update cfg polling pi none init).initial_requests = 1 ∧
    (vmssVMExtensions_begin_create_or_update cfg polling pi none init).poller =
      PollerConstruction.fresh init := by
  exact ⟨rfl, rfl, rfl, rfl, rfl, rfl, rfl, rfl, rfl, rfl, rfl, rfl⟩

/-- Claim C4: in every embedded `begin_X` operation, `polling=False` selects
the no-polling strategy — under which the poller is immediately terminal on the
raw initial response with zero polling requests — `polling=True` selects ARM
polling with the `polling_interval` keyword when given, else the client
configuration's `polling_interval`, and any other value is used as the polling
method itself. -/
theorem begin_operations_polling_selection {R : Type} (cfg : ArmClientConfig)
    (pi : Option Nat) (n : Nat) (m : PollingMethodChoice) (ct : Option String)
    (init : R) (polls : List R) (isTerminal : R → Bool) :
    (agentPools_begin_create_or_update cfg PollingArg.pyFalse pi ct init).polling_method =
      PollingMethodChoice.noPolling ∧
    runPollingMethod isTerminal PollingMethodChoice.noPolling init polls = some (init, 0) ∧
    (agentPools_begin_create_or_update cfg PollingArg.pyTrue (some n) ct init).polling_method =
      PollingMethodChoice.armPolling n ∧
    (agentPools_begin_create_or_update cfg PollingArg.pyTrue none ct init).polling_method =
      PollingMethodChoice.armPolling cfg.polling_interval ∧
    (agentPools_begin_create_or_update cfg (PollingArg.method m) pi ct init).polling_method = m ∧
    (cloudServicesUpdateDomain_begin_walk_update_domain cfg PollingArg.pyFalse pi ct init).polling_method =
      PollingMethodChoice.noPolling ∧
    (cloudServicesUpdateDomain_begin_walk_update_domain cfg PollingArg.pyTrue (some n) ct init).polling_method =
      PollingMethodChoice.armPolling n ∧
    (cloudServicesUpdateDomain_begin_walk_update_domain cfg PollingArg.pyTrue none ct init).polling_method =
      PollingMethodChoice.armPolling cfg.polling_interval ∧
    (cloudServicesUpdateDomain_begin_walk_update_domain cfg (PollingArg.method m) pi ct init).polling_method = m ∧
    (vmssVMExtensions_begin_create_or_update cfg PollingArg.pyFalse pi ct init).polling_method =
      PollingMethodChoice.noPolling ∧
    (vmssVMExtensions_begin_create_or_update cfg PollingArg.pyTrue (some n) ct init).polling_method =
      PollingMethodChoice.armPolling n ∧
    (vmssVMExtensions_begin_create_or_update cfg PollingArg.pyTrue none ct init).polling_method =
      PollingMethodChoice.armPolling cfg.polling_interval ∧
    (vmssVMExtensions_begin_create_or_update cfg (PollingArg.method m) pi ct init).polling_method = m := by
  refine ⟨?_, rfl, ?_, ?_, ?_, ?_, ?_, ?_, ?_, ?_, ?_, ?_, ?_⟩ <;> cases ct <;> rfl

/-- Claim C10: `TableClient.__init__` with an empty (falsy) `table_name` raises
`ValueError` before any attribute is set or base-client work happens; with a
non-empty `table_name`, the constructed client's `table_name` attribute equals
the argument. -/
theorem tableClient_init_table_name (endpoint table_name : String) :
    (table_name = "" →
      tableClient_init endpoint table_name = Except.error "Please specify a table name.") ∧
    (table_name ≠ "" →
      tableClient_init endpoint table_name =
        Except.ok { table_name := table_name, endpoint := endpoint }) := by
  constructor
  · intro h; simp [tableClient_init, h]
  · intro h; simp [tableClient_init, h]

/-- Witness for C10 at a concrete endpoint, a valid name and the empty name. -/
theorem tableClient_init_table_name_witness :
    tableClient_init "https://acct.table.example" "mytable" =
      Except.ok { table_name := "mytable", endpoint := "https://acct.table.example" } ∧
    tableClient_init "https://acct.table.example" "" =
      Except.error "Please specify a table name." := by
  refine ⟨?_, ?_⟩
  · exact (tableClient_init_table_name "https://acct.table.example" "mytable").2
      (by decide)
  · exact (tableClient_init_table_name "https://acct.table.example" "").1 rfl

theorem data_append (s t : String) : (s ++ t).data = s.data ++ t.data := rfl

theorem asString_append (a b : List Char) :
    (a ++ b).asString = a.asString ++ b.asString := rfl

theorem asString_data (s : String) : s.data.asString = s := rfl

theorem splitAtQuery_append (a b : List Char) (h : '?' ∉ a) :
    splitAtQuery (a ++ '?' :: b) = (a, some b) := by
  induction a with
  | nil => simp [splitAtQuery]
  | cons c cs ih =>
    have hc : ¬ c = '?' := fun e => h (by simp [e])
    have hcs : '?' ∉ cs := fun hm => h (List.mem_cons_of_mem _ hm)
    simp [splitAtQuery, hc, ih hcs]

theorem takeWhile_append_slash (h t : List Char) (hh : ∀ c ∈ h, c ≠ '/') :
    (h ++ '/' :: t).takeWhile (fun x => x ≠ '/') = h := by
  induction h with
  | nil => simp
  | cons c cs ih =>
    have hc : c ≠ '/' := hh c (by simp)
    have hcs : ∀ x ∈ cs, x ≠ '/' := fun x hx => hh x (by simp [hx])
    simp [hc]
    simpa using ih hcs

theorem dropWhile_append_slash (h t : List Char) (hh : ∀ c ∈ h, c ≠ '/') :
    (h ++ '/' :: t).dropWhile (fun x => x ≠ '/') = '/' :: t := by
  induction h with
  | nil => simp
  | cons c cs ih =>
    have hc : c ≠ '/' := hh c (by simp)
    have hcs : ∀ x ∈ cs, x ≠ '/' := fun x hx => hh x (by simp [hx])
    simp [hc]
    simpa using ih hcs

theorem netlocSplit_append (pre rest : List Char) (hp : ':' ∉ pre) :
    netlocSplit (pre ++ ':' :: '/' :: '/' :: rest) =
      (pre ++ ':' :: '/' :: '/' :: rest.takeWhile (fun x => x ≠ '/'),
       rest.dropWhile (fun x => x ≠ '/')) := by
  induction pre with
  | nil => simp [netlocSplit]
  | cons c cs ih =>
    have hc : ¬ c = ':' := fun e => hp (by simp [e])
    have hcs : ':' ∉ cs := fun hm => hp (List.mem_cons_of_mem _ hm)
    simp [netlocSplit, hc, ih hcs]

/-- Claim C1 as amended: `AvailabilitySetsOperations.list` (and the other
operations that parse the continuation link) builds the next-page request as
the claim states — a GET to the link's URL whose query parameters are the
link's own with `api-version` replaced by the client configuration's
`api_version` — and with no link it builds the initial request from the
operation's template; but the older-generation `AgentPoolsOperations.list`
instead passes the whole continuation link as the template URL of its request
builder together with the operation-level `api_version` argument, leaving the
link's own query string unparsed inside the URL. -/
theorem nextPage_request_construction (cfg : ArmClientConfig)
    (rg rn apiv : String) (params0 : List (String × String))
    (scheme host path query nl' : String)
    (hs : ':' ∉ scheme.data) (hsq : '?' ∉ scheme.data)
    (hh : ∀ c ∈ host.data, c ≠ '/') (hhq : '?' ∉ host.data)
    (hpq : '?' ∉ path.data) (hpabs : path.data.head? = some '/')
    (hnl : nl' ≠ "") :
    availabilitySets_list_prepare_request cfg rg apiv params0
        (some (scheme ++ "://" ++ host ++ path ++ "?" ++ query)) =
      claimNextPageRequest cfg (scheme ++ "://" ++ host ++ path ++ "?" ++ query) ∧
    availabilitySets_list_prepare_request cfg rg apiv params0 none =
      build_list_request rg cfg.subscription_id apiv
        availabilitySets_list_template_url params0 ∧
    agentPools_list_prepare_request cfg rg rn apiv (some nl') =
      containerservice_build_list_request cfg.subscription_id rg rn apiv nl' := by
  obtain ⟨p', hp'⟩ : ∃ p', path.data = '/' :: p' := by
    cases hpd : path.data with
    | nil => rw [hpd] at hpabs; simp at hpabs
    | cons a l =>
      rw [hpd] at hpabs
      simp only [List.head?_cons, Option.some.injEq] at hpabs
      exact ⟨l, by rw [hpabs]⟩
  refine ⟨?_, rfl, ?_⟩
  · set nl := scheme ++ "://" ++ host ++ path ++ "?" ++ query with hnl_def
    have h_data : nl.data =
        (scheme.data ++ ':' :: '/' :: '/' :: (host.data ++ path.data)) ++
          '?' :: query.data := by
      simp [hnl_def, data_append, List.append_assoc]
    have ha : '?' ∉ scheme.data ++ ':' :: '/' :: '/' :: (host.data ++ path.data) := by
      intro hmem
      simp only [List.mem_append, List.mem_cons] at hmem
      rcases hmem with h1 | h1 | h1 | h1 | h1 | h1
      · exact hsq h1
      · exact absurd h1 (by decide)
      · exact absurd h1 (by decide)
      · exact absurd h1 (by decide)
      · exact hhq h1
      · exact hpq h1
    have hsplit : splitAtQuery nl.data =
        (scheme.data ++ ':' :: '/' :: '/' :: (host.data ++ path.data),
         some query.data) := by
      rw [h_data]; exact splitAtQuery_append _ _ ha
    have hsplit1 : (splitAtQuery nl.data).1 =
        scheme.data ++ ':' :: '/' :: '/' :: (host.data ++ path.data) := by
      rw [hsplit]
    have hnetloc : netlocSplit (splitAtQuery nl.data).1 =
        (scheme.data ++ ':' :: '/' :: '/' :: host.data, path.data) := by
      rw [hsplit1, hp']
      have hns := netlocSplit_append scheme.data (host.data ++ '/' :: p') hs
      rw [hns, takeWhile_append_slash host.data p' hh,
        dropWhile_append_slash host.data p' hh]
    have hnetloc1 : (netlocSplit (splitAtQuery nl.data).1).1 =
        scheme.data ++ ':' :: '/' :: '/' :: host.data := by
      rw [hnetloc]
    have hnetloc2 : (netlocSplit (splitAtQuery nl.data).1).2 = path.data := by
      rw [hnetloc]
    have hne : nl ≠ "" := by
      intro h0
      have hd : nl.data = [] := by rw [h0]
      rw [h_data] at hd
      simp at hd
    have hpath : urlparse_path nl = path := by
      rw [urlparse_path, hnetloc2, asString_data]
    have hurl : urljoin nl (urlparse_path nl) = (splitAtQuery nl.data).1.asString := by
      rw [hpath]
      have hj : urljoin nl path =
          ((netlocSplit (splitAtQuery nl.data).1).1).asString ++ path := by
        simp only [urljoin, hp']
      rw [hj, hnetloc1, hsplit1]
      rw [show scheme.data ++ ':' :: '/' :: '/' :: (host.data ++ path.data) =
          (scheme.data ++ ':' :: '/' :: '/' :: host.data) ++ path.data by
        simp [List.append_assoc]]
      simp only [asString_append, asString_data]
    have hpy : pyStrOrNone (some nl) = some nl := by
      simp [pyStrOrNone, hne]
    show availabilitySets_list_prepare_request cfg rg apiv params0 (some nl) =
      claimNextPageRequest cfg nl
    unfold availabilitySets_list_prepare_request
    rw [hpy]
    simp only [claimNextPageRequest, HttpRequestModel.mk.injEq]
    exact ⟨trivial, hurl, trivial⟩
  · have hpy : pyStrOrNone (some nl') = some nl' := by
      simp [pyStrOrNone, hnl]
    unfold agentPools_list_prepare_request
    rw [hpy]

/-- Counterexample to claim C1 as stated: for `AgentPoolsOperations.list`, the
next-page request built from a continuation link is not the claim's request —
the link (query string included) is kept whole as the URL and the operation's
`api-version` is attached as the only parameter, rather than the link's own
parameters with `api-version` replaced by the client's configured version. -/
theorem nextPage_request_counterexample :
    agentPools_list_prepare_request demoConfig "rg" "cluster" "2022-01-01"
        (some "https://x/agentPools?foo=1&api-version=2015-01-01") ≠
      claimNextPageRequest demoConfig
        "https://x/agentPools?foo=1&api-version=2015-01-01" := by
  decide

/-- Witness for the amended C1 on the spec's concrete link
`https://x/list?cursor=2`. -/
theorem nextPage_request_construction_witness :
    (':' ∉ ("https" : String).data ∧ '?' ∉ ("https" : String).data ∧
     (∀ c ∈ ("x" : String).data, c ≠ '/') ∧ '?' ∉ ("x" : String).data ∧
     '?' ∉ ("/list" : String).data ∧
     ("/list" : String).data.head? = some '/' ∧
     ("https://x/list?cursor=2" : String) ≠ "") ∧
    (availabilitySets_list_prepare_request demoConfig "rg" "2022-01-01" []
        (some ("https" ++ "://" ++ "x" ++ "/list" ++ "?" ++ "cursor=2")) =
      claimNextPageRequest demoConfig
        ("https" ++ "://" ++ "x" ++ "/list" ++ "?" ++ "cursor=2") ∧
     availabilitySets_list_prepare_request demoConfig "rg" "2022-01-01" [] none =
      build_list_request "rg" demoConfig.subscription_id "2022-01-01"
        availabilitySets_list_template_url [] ∧
     agentPools_list_prepare_request demoConfig "rg" "cluster" "2022-01-01"
        (some "https://x/list?cursor=2") =
      containerservice_build_list_request demoConfig.subscription_id "rg" "cluster"
        "2022-01-01" "https://x/list?cursor=2") := by
  refine ⟨⟨by decide, by decide, by decide, by decide, by decide, rfl, by decide⟩, ?_⟩
  exact nextPage_request_construction demoConfig "rg" "cluster" "2022-01-01" []
    "https" "x" "/list" "cursor=2" "https://x/list?cursor=2"
    (by decide) (by decide) (by decide) (by decide) (by decide) rfl (by decide)
